import Mathlib

/-!
Verification development for the fastify-prisma-notes service.

The repository is a CRUD REST API for notes and authors with many-to-many
tag filtering.  We give a shallow embedding of its core:

* JavaScript strings are modelled as `List Char` (`JStr`); `toLowerCase`
  and `trim` become `jsToLower` and `jsTrim` (whitespace is the ASCII set
  recognised by `Char.isWhitespace`, matching the characters relevant to
  the service's inputs).
* `cleanTags` (src/utils/tags.ts) is modelled with an insertion-ordered
  set (`jsSetDedup`), mirroring `Array.from(new Set(...)).filter(Boolean)`.
* The relational store (Prisma/PostgreSQL) is a `Store` record holding the
  Author rows, the Note rows (each carrying its association list of tag
  names — tag names are the unique key of the Tag table, per the
  `Tag_name_key` unique index in the migration) and the Tag rows
  themselves (`tagRows`, a list of names).
* Each Fastify handler (src/routes/notes.ts, src/routes/authors.ts)
  becomes a function from its parsed request to a response, returning the
  possibly updated store where the route can write.  Request bodies model
  JSON objects: optional fields are `Option`s, the `tags` field can be
  absent, an array, or a non-array value (`TagsField`), and a PATCH body
  additionally records how many unrecognised keys it carries
  (`extraKeys`), because the handler's validation counts `Object.keys`.
-/

abbrev JStr := List Char

/-- JavaScript `String.prototype.toLowerCase` on the modelled strings. -/
def jsToLower (s : JStr) : JStr := s.map Char.toLower

/-- JavaScript `String.prototype.trim`: drop leading and trailing whitespace. -/
def jsTrim (s : JStr) : JStr :=
  ((s.dropWhile Char.isWhitespace).reverse.dropWhile Char.isWhitespace).reverse

/-- The per-element normalisation `(t) => t.toLowerCase().trim()` from `cleanTags`. -/
def jsNormTag (s : JStr) : JStr := jsTrim (jsToLower s)

/-- Insertion-ordered deduplication, as performed by `new Set(...)` in
JavaScript: the first occurrence of an element wins and fixes its position. -/
def jsSetDedup (seen : List JStr) : List JStr → List JStr
  | [] => []
  | t :: ts => if t ∈ seen then jsSetDedup seen ts else t :: jsSetDedup (t :: seen) ts

/-- `cleanTags` from src/utils/tags.ts:
`Array.from(new Set(tags.map((t) => t.toLowerCase().trim()))).filter(Boolean)`. -/
def cleanTags (tags : List JStr) : List JStr :=
  (jsSetDedup [] (tags.map jsNormTag)).filter (fun t => !t.isEmpty)

/-- Split a string at every separator character (JavaScript `split`):
`"".split(",") = [""]` and empty pieces between adjacent separators are kept. -/
def jsSplitOn (isSep : Char → Bool) : JStr → List JStr
  | [] => [[]]
  | c :: rest =>
    if isSep c then [] :: jsSplitOn isSep rest
    else
      match jsSplitOn isSep rest with
      | [] => [[c]]
      | piece :: more => (c :: piece) :: more

/-- Hexadecimal digit (either case), by code point. -/
def isHexDigit (c : Char) : Bool :=
  (48 ≤ c.toNat && c.toNat ≤ 57) || (97 ≤ c.toNat && c.toNat ≤ 102) ||
    (65 ≤ c.toNat && c.toNat ≤ 70)

def nilUUID : JStr := ("00000000-0000-0000-0000-000000000000".data)

def maxUUID : JStr := ("ffffffff-ffff-ffff-ffff-ffffffffffff".data)

/-- Version digit accepted by the `uuid` package's validator: `'1'`-`'8'`. -/
def uuidVersionChar (c : Char) : Bool := 49 ≤ c.toNat && c.toNat ≤ 56

/-- Variant digit accepted by the `uuid` package's validator:
`'8'`, `'9'`, `'a'`, `'b'`, `'A'`, `'B'`. -/
def uuidVariantChar (c : Char) : Bool :=
  c.toNat = 56 || c.toNat = 57 || c.toNat = 97 || c.toNat = 98 ||
    c.toNat = 65 || c.toNat = 66

/-- `validate` from the `uuid` npm package (imported as `isValidUUID` in the
routes): the nil and max UUIDs, or five dash-separated hex groups of lengths
8-4-4-4-12 with a version digit and a variant digit. -/
def isValidUUID (s : JStr) : Bool :=
  if s == nilUUID || s == maxUUID then true
  else
    match jsSplitOn (fun c => c.toNat = 45) s with
    | [g1, g2, g3, g4, g5] =>
      g1.length == 8 && g2.length == 4 && g3.length == 4 && g4.length == 4 &&
        g5.length == 12 && (g1 ++ g2 ++ g3 ++ g4 ++ g5).all isHexDigit &&
        (match g3 with | v :: _ => uuidVersionChar v | [] => false) &&
        (match g4 with | v :: _ => uuidVariantChar v | [] => false)
    | _ => false

/-- An Author row: `id` primary key, `name`. -/
structure Author where
  id : JStr
  name : JStr
deriving DecidableEq

/-- A Note row together with its tag associations.  The `_NoteToTag` join
table is represented by the `tags` field: the list of associated tag names
(names are the unique key of the Tag table). -/
structure Note where
  id : JStr
  title : JStr
  content : Option JStr
  authorId : JStr
  createdAt : Nat
  updatedAt : Nat
  tags : List JStr
deriving DecidableEq

/-- The relational store: Author rows, Note rows (with associations), and the
Tag table as the list of tag names (`Tag_name_key` makes the name the key). -/
structure Store where
  authors : List Author
  notes : List Note
  tagRows : List JStr
deriving DecidableEq

def emptyStore : Store := ⟨[], [], []⟩

/-- `prisma.author.findUnique({ where: { id } })`. -/
def findAuthor (i : JStr) (s : Store) : Option Author :=
  s.authors.find? (fun a => a.id == i)

/-- `prisma.note.findUnique({ where: { id } })`. -/
def findNote (i : JStr) (s : Store) : Option Note :=
  s.notes.find? (fun n => n.id == i)

/-- Effect of Prisma's `connectOrCreate` on the Tag table: each requested name
is connected if a Tag row with that name exists, otherwise a new row is
created.  Existing rows are never removed. -/
def connectOrCreate (names : List JStr) (rows : List JStr) : List JStr :=
  names.foldl (fun acc nm => if nm ∈ acc then acc else acc ++ [nm]) rows

/-- An HTTP response: either a success payload or an error with the JSON
`message` string (the JSON `error` category is determined by the status). -/
inductive HResp (α : Type) where
  | ok (status : Nat) (payload : α)
  | err (status : Nat) (message : JStr)
deriving DecidableEq

def statusOf {α : Type} : HResp α → Nat
  | .ok st _ => st
  | .err st _ => st

/-- A Note as returned by the API: the row `include`d with its author
(`tags` are already carried on the `Note`). -/
structure NoteJoin where
  note : Note
  author : Option Author
deriving DecidableEq

def joinNote (s : Store) (n : Note) : NoteJoin := ⟨n, findAuthor n.authorId s⟩

/-- The `tags` field of a JSON body: absent, a (string) array, or present
but not an array. -/
inductive TagsField where
  | absent
  | arr (ts : List JStr)
  | notArray
deriving DecidableEq

/-- Body of `POST /api/v1/notes`. -/
structure CreateNoteBody where
  title : Option JStr
  content : Option JStr
  authorId : Option JStr
  tags : TagsField
deriving DecidableEq

/-- The check `!x || x.trim() === ""` used on `title`, `authorId`, `name`. -/
def blankStr : Option JStr → Bool
  | none => true
  | some t => (jsTrim t).isEmpty

/-- The `POST /notes` handler from src/routes/notes.ts.  `newId` is the UUID
the database generates for the row and `now` the insertion timestamp. -/
def createNoteHandler (newId : JStr) (now : Nat) (b : CreateNoteBody) (s : Store) :
    HResp NoteJoin × Store :=
  if blankStr b.title then (.err 400 ("Note title is required".data), s)
  else if b.tags == TagsField.notArray then (.err 400 ("Tags must be an array".data), s)
  else if blankStr b.authorId then (.err 400 ("authorId is required".data), s)
  else
    let aid := b.authorId.getD []
    if !isValidUUID aid then
      (.err 400 ("The provided authorId is not in valid UUID format".data), s)
    else
      match findAuthor aid s with
      | none => (.err 404 ("Author not found".data), s)
      | some _ =>
        let cleaned := cleanTags (match b.tags with | .arr ts => ts | _ => [])
        let contentVal : Option JStr :=
          match b.content with
          | none => none
          | some c => if (jsTrim c).isEmpty then none else some (jsTrim c)
        let n : Note :=
          { id := newId, title := jsTrim (b.title.getD []), content := contentVal,
            authorId := aid, createdAt := now, updatedAt := now, tags := cleaned }
        let s2 : Store :=
          { s with notes := s.notes ++ [n],
                   tagRows := connectOrCreate cleaned s.tagRows }
        (.ok 201 (joinNote s2 n), s2)

/-- Ordering used by `orderBy: { createdAt: "desc" }`. -/
abbrev createdGE (a b : Note) : Prop := b.createdAt ≤ a.createdAt

instance : DecidableRel createdGE := fun a b => Nat.decLe b.createdAt a.createdAt

instance : IsTotal Note createdGE := ⟨fun a b => Nat.le_total b.createdAt a.createdAt⟩

instance : IsTrans Note createdGE := ⟨fun _ _ _ h1 h2 => Nat.le_trans h2 h1⟩

/-- The `where` clause built by the `GET /notes` handler: `tags` absent or the
empty string (falsy in JavaScript) means no filter; otherwise the query is
split on commas and each piece lowercased and trimmed. -/
def parseTagsQuery (q : Option JStr) : Option (List JStr) :=
  match q with
  | none => none
  | some t =>
    if t.isEmpty then none
    else some ((jsSplitOn (fun c => c.toNat = 44) t).map (fun p => jsTrim (jsToLower p)))

/-- `tags: { some: { name: { in: names } } }`: the note has at least one
associated tag whose name is in the list. -/
def noteMatchesFilter (names : List JStr) (n : Note) : Bool :=
  n.tags.any (fun t => names.contains t)

/-- `prisma.note.findMany({ where, orderBy: { createdAt: "desc" } })`. -/
def dalListNotes (filter : Option (List JStr)) (s : Store) : List Note :=
  let base :=
    match filter with
    | none => s.notes
    | some names => s.notes.filter (noteMatchesFilter names)
  List.insertionSort createdGE base

/-- The `GET /notes` handler (always replies 200 with the joined list). -/
def listNotesHandler (q : Option JStr) (s : Store) : List NoteJoin :=
  (dalListNotes (parseTagsQuery q) s).map (joinNote s)

/-- The `GET /notes/:id` handler. -/
def getNoteHandler (i : JStr) (s : Store) : HResp NoteJoin :=
  if !isValidUUID i then .err 400 ("Invalid UUID format".data)
  else
    match findNote i s with
    | none => .err 404 ("Note not found".data)
    | some n => .ok 200 (joinNote s n)

/-- The `GET /authors/:id` handler. -/
def getAuthorHandler (i : JStr) (s : Store) : HResp Author :=
  if !isValidUUID i then .err 400 ("Invalid UUID format".data)
  else
    match findAuthor i s with
    | none => .err 404 ("Author not found".data)
    | some a => .ok 200 a

/-- The `POST /authors` handler. -/
def createAuthorHandler (newId : JStr) (name : Option JStr) (s : Store) :
    HResp Author × Store :=
  if blankStr name then (.err 400 ("Author name is required".data), s)
  else
    let a : Author := ⟨newId, jsTrim (name.getD [])⟩
    (.ok 201 a, { s with authors := s.authors ++ [a] })

/-- Body of `PATCH /notes/:id`.  `extraKeys` counts the keys of the JSON
object other than `title`, `content` and `tags`: the handler's validation
tests `Object.keys(body).length`, so unrecognised keys matter. -/
structure PatchNoteBody where
  title : Option JStr
  content : Option JStr
  tags : TagsField
  extraKeys : Nat
deriving DecidableEq

/-- `Object.keys(body).length` for a PATCH body. -/
def patchKeyCount (b : PatchNoteBody) : Nat :=
  (if b.title.isSome then 1 else 0) + (if b.content.isSome then 1 else 0) +
    (if b.tags == TagsField.absent then 0 else 1) + b.extraKeys

/-- `validateNotePatchRequest` from src/routes/notes.ts, with the thrown
message as the result (`none` = validation passed). -/
def validateNotePatchRequest (b : PatchNoteBody) : Option JStr :=
  if patchKeyCount b == 0 then some ("No fields to update provided".data)
  else if (match b.title with | some t => (jsTrim t).isEmpty | none => false) then
    some ("Title cannot be empty".data)
  else if b.tags == TagsField.notArray then some ("Tags must be an array".data)
  else none

/-- The `NoteUpdateData` built by `buildNoteUpdateData`: `tagNames = some ts`
models `tags: { set: [], connectOrCreate: ... }` (full replacement by `ts`). -/
structure NoteUpdateData where
  title : Option JStr
  content : Option (Option JStr)
  tagNames : Option (List JStr)
deriving DecidableEq

/-- `buildNoteUpdateData` from src/routes/notes.ts. -/
def buildNoteUpdateData (b : PatchNoteBody) : NoteUpdateData :=
  { title := b.title.map jsTrim,
    content := b.content.map (fun c => if (jsTrim c).isEmpty then none else some (jsTrim c)),
    tagNames := match b.tags with | .arr ts => some (cleanTags ts) | _ => none }

/-- Apply the update data to a Note row: only present fields change,
`updatedAt` is refreshed (Prisma's `@updatedAt`). -/
def applyNoteUpdate (d : NoteUpdateData) (now : Nat) (n : Note) : Note :=
  { n with title := d.title.getD n.title,
           content := d.content.getD n.content,
           tags := d.tagNames.getD n.tags,
           updatedAt := now }

/-- `prisma.note.update({ where: { id }, data })`: `none` is the P2025
"record not found" error; on success the row is rewritten in place and the
Tag table extended by `connectOrCreate` for a present `tags` replacement. -/
def dalUpdateNote (i : JStr) (d : NoteUpdateData) (now : Nat) (s : Store) :
    Option (Note × Store) :=
  match findNote i s with
  | none => none
  | some m =>
    let m2 := applyNoteUpdate d now m
    some (m2,
      { s with notes := s.notes.map (fun x => if x.id == i then m2 else x),
               tagRows := connectOrCreate (d.tagNames.getD []) s.tagRows })

/-- The `PATCH /notes/:id` handler from src/routes/notes.ts. -/
def patchNoteHandler (now : Nat) (i : JStr) (b : PatchNoteBody) (s : Store) :
    HResp NoteJoin × Store :=
  if !isValidUUID i then (.err 400 ("Invalid UUID format".data), s)
  else
    match validateNotePatchRequest b with
    | some msg => (.err 400 msg, s)
    | none =>
      match dalUpdateNote i (buildNoteUpdateData b) now s with
      | none => (.err 404 ("Note not found".data), s)
      | some (n2, s2) => (.ok 200 (joinNote s2 n2), s2)

/-- The store-mutating operations of the API (reads never change the store). -/
inductive ApiOp where
  | postAuthor (newId : JStr) (name : Option JStr)
  | postNote (newId : JStr) (now : Nat) (b : CreateNoteBody)
  | patchNote (now : Nat) (i : JStr) (b : PatchNoteBody)
deriving DecidableEq

def applyOp (o : ApiOp) (s : Store) : Store :=
  match o with
  | .postAuthor nid nm => (createAuthorHandler nid nm s).2
  | .postNote nid now b => (createNoteHandler nid now b s).2
  | .patchNote now i b => (patchNoteHandler now i b s).2

/-- Stores reachable from the empty database through the API. -/
inductive Reachable : Store → Prop where
  | init : Reachable emptyStore
  | next (o : ApiOp) {s : Store} : Reachable s → Reachable (applyOp o s)

/-- A stored tag name in normal form: non-empty, trimmed, lowercase. -/
abbrev normalTagName (t : JStr) : Prop :=
  t ≠ [] ∧ jsTrim t = t ∧ jsToLower t = t

/-! ### Concrete fixtures used by witnesses and counterexamples -/

def uuidA : JStr := ("11111111-1111-4111-8111-111111111111".data)

def uuidN : JStr := ("22222222-2222-4222-9222-222222222222".data)

def uuidB : JStr := ("33333333-3333-4333-a333-333333333333".data)

def cexNote : Note :=
  { id := uuidN, title := ("t".data), content := none, authorId := uuidA,
    createdAt := 0, updatedAt := 0, tags := [("x".data)] }

def cexStore : Store :=
  { authors := [⟨uuidA, ("Ada".data)⟩], notes := [cexNote], tagRows := [("x".data)] }

def cexPatchBody : PatchNoteBody :=
  { title := none, content := none, tags := TagsField.absent, extraKeys := 1 }

def wBody : CreateNoteBody :=
  { title := some ("Hello".data), content := none, authorId := some uuidA,
    tags := TagsField.arr [("Testing".data), (" Vitest ".data), ("testing".data)] }

def wStore1 : Store := applyOp (.postAuthor uuidA (some ("Ada".data))) emptyStore

def wStore2 : Store := applyOp (.postNote uuidN 1 wBody) wStore1

def wPatchBody : PatchNoteBody :=
  { title := none, content := none,
    tags := TagsField.arr [("updated".data), ("testing".data)], extraKeys := 0 }

def wNoteTestingOther : Note :=
  { id := uuidB, title := ("n1".data), content := none, authorId := uuidA,
    createdAt := 2, updatedAt := 2, tags := [("testing".data), ("other".data)] }

def wNoteOther : Note :=
  { id := uuidN, title := ("n2".data), content := none, authorId := uuidA,
    createdAt := 1, updatedAt := 1, tags := [("other".data)] }

def wListStore : Store :=
  { authors := [⟨uuidA, ("Ada".data)⟩],
    notes := [wNoteOther, wNoteTestingOther],
    tagRows := [("testing".data), ("other".data)] }

/-! ### String-normalisation lemmas -/

lemma dropWhile_idem {α : Type} (p : α → Bool) (l : List α) :
    (l.dropWhile p).dropWhile p = l.dropWhile p := by
  induction l with
  | nil => rfl
  | cons a t ih =>
    by_cases h : p a = true
    · simp [List.dropWhile_cons, h, ih]
    · simp [List.dropWhile_cons, h]

lemma dropWhile_eq_self_mono {α : Type} (p : α → Bool) {l1 l2 : List α}
    (pre : l1 <+: l2) (h : l2.dropWhile p = l2) : l1.dropWhile p = l1 := by
  cases l1 with
  | nil => rfl
  | cons a t1 =>
    obtain ⟨r, hr⟩ := pre
    subst hr
    rw [List.cons_append, List.dropWhile_cons] at h
    by_cases hp : p a = true
    · exfalso
      rw [if_pos hp] at h
      have hlen := (List.dropWhile_sublist (l := t1 ++ r) p).length_le
      rw [h] at hlen
      simp at hlen
    · rw [List.dropWhile_cons, if_neg hp]

lemma jsTrim_idem (s : JStr) : jsTrim (jsTrim s) = jsTrim s := by
  unfold jsTrim
  have hA : (s.dropWhile Char.isWhitespace).dropWhile Char.isWhitespace
      = s.dropWhile Char.isWhitespace := dropWhile_idem _ _
  have hpre : ((s.dropWhile Char.isWhitespace).reverse.dropWhile Char.isWhitespace).reverse
      <+: s.dropWhile Char.isWhitespace := by
    have h1 := (List.dropWhile_suffix (l := (s.dropWhile Char.isWhitespace).reverse)
        Char.isWhitespace).reverse
    rwa [List.reverse_reverse] at h1
  have hT := dropWhile_eq_self_mono Char.isWhitespace hpre hA
  rw [hT, List.reverse_reverse, dropWhile_idem]

lemma mem_of_mem_jsTrim {c : Char} {s : JStr} (h : c ∈ jsTrim s) : c ∈ s := by
  unfold jsTrim at h
  rw [List.mem_reverse] at h
  have h1 := (List.dropWhile_sublist Char.isWhitespace).subset h
  rw [List.mem_reverse] at h1
  exact (List.dropWhile_sublist Char.isWhitespace).subset h1

lemma char_toLower_idem (c : Char) : Char.toLower (Char.toLower c) = Char.toLower c := by
  by_cases h : 65 ≤ c.toNat ∧ c.toNat ≤ 90
  · have heq : Char.toLower c = Char.ofNat (c.toNat + 32) := by
      show (if c.toNat ≥ 65 ∧ c.toNat ≤ 90 then Char.ofNat (c.toNat + 32) else c) = _
      rw [if_pos h]
    rw [heq]
    have h26 : c.toNat = 65 ∨ c.toNat = 66 ∨ c.toNat = 67 ∨ c.toNat = 68 ∨ c.toNat = 69 ∨
        c.toNat = 70 ∨ c.toNat = 71 ∨ c.toNat = 72 ∨ c.toNat = 73 ∨ c.toNat = 74 ∨
        c.toNat = 75 ∨ c.toNat = 76 ∨ c.toNat = 77 ∨ c.toNat = 78 ∨ c.toNat = 79 ∨
        c.toNat = 80 ∨ c.toNat = 81 ∨ c.toNat = 82 ∨ c.toNat = 83 ∨ c.toNat = 84 ∨
        c.toNat = 85 ∨ c.toNat = 86 ∨ c.toNat = 87 ∨ c.toNat = 88 ∨ c.toNat = 89 ∨
        c.toNat = 90 := by omega
    rcases h26 with h1|h1|h1|h1|h1|h1|h1|h1|h1|h1|h1|h1|h1|h1|h1|h1|h1|h1|h1|h1|h1|h1|h1|h1|h1|h1 <;>
      rw [h1] <;> decide
  · have heq : Char.toLower c = c := by
      show (if c.toNat ≥ 65 ∧ c.toNat ≤ 90 then Char.ofNat (c.toNat + 32) else c) = _
      rw [if_neg h]
    rw [heq]
    exact heq

lemma jsTrim_jsNormTag (s : JStr) : jsTrim (jsNormTag s) = jsNormTag s := jsTrim_idem _

lemma jsToLower_jsNormTag (s : JStr) : jsToLower (jsNormTag s) = jsNormTag s := by
  unfold jsNormTag jsToLower
  have h : ∀ c ∈ jsTrim (s.map Char.toLower), Char.toLower c = c := by
    intro c hc
    have hc2 := mem_of_mem_jsTrim hc
    rw [List.mem_map] at hc2
    obtain ⟨c0, -, rfl⟩ := hc2
    exact char_toLower_idem c0
  calc (jsTrim (s.map Char.toLower)).map Char.toLower
      = (jsTrim (s.map Char.toLower)).map (fun c => c) := List.map_congr_left h
    _ = jsTrim (s.map Char.toLower) := List.map_id' _

/-! ### Lemmas about the insertion-ordered set and `cleanTags` -/

lemma mem_jsSetDedup (t : JStr) (l : List JStr) : ∀ seen,
    t ∈ jsSetDedup seen l ↔ t ∈ l ∧ t ∉ seen := by
  induction l with
  | nil => intro seen; simp [jsSetDedup]
  | cons a l ih =>
    intro seen
    simp only [jsSetDedup]
    by_cases h : a ∈ seen
    · rw [if_pos h, ih seen, List.mem_cons]
      constructor
      · rintro ⟨h1, h2⟩
        exact ⟨Or.inr h1, h2⟩
      · rintro ⟨h1 | h1, h2⟩
        · exact absurd h (h1 ▸ h2)
        · exact ⟨h1, h2⟩
    · rw [if_neg h, List.mem_cons, List.mem_cons]
      constructor
      · rintro (rfl | h1)
        · exact ⟨Or.inl rfl, h⟩
        · rw [ih] at h1
          exact ⟨Or.inr h1.1, fun hx => h1.2 (List.mem_cons_of_mem _ hx)⟩
      · rintro ⟨rfl | h1, h2⟩
        · exact Or.inl rfl
        · by_cases he : t = a
          · exact Or.inl he
          · refine Or.inr ?_
            rw [ih]
            exact ⟨h1, fun hx => (List.mem_cons.mp hx).elim he h2⟩

lemma nodup_jsSetDedup (l : List JStr) : ∀ seen, (jsSetDedup seen l).Nodup := by
  induction l with
  | nil => intro seen; simp [jsSetDedup]
  | cons a l ih =>
    intro seen
    simp only [jsSetDedup]
    by_cases h : a ∈ seen
    · rw [if_pos h]
      exact ih seen
    · rw [if_neg h]
      refine List.nodup_cons.mpr ⟨?_, ih _⟩
      rw [mem_jsSetDedup]
      rintro ⟨-, h2⟩
      exact h2 (List.mem_cons_self a seen)

lemma jsSetDedup_congr (l : List JStr) : ∀ s1 s2, (∀ x, x ∈ s1 ↔ x ∈ s2) →
    jsSetDedup s1 l = jsSetDedup s2 l := by
  induction l with
  | nil => intro s1 s2 _; rfl
  | cons a l ih =>
    intro s1 s2 h
    simp only [jsSetDedup]
    by_cases ha : a ∈ s1
    · rw [if_pos ha, if_pos ((h a).mp ha)]
      exact ih s1 s2 h
    · rw [if_neg ha, if_neg (fun hx => ha ((h a).mpr hx))]
      congr 1
      refine ih (a :: s1) (a :: s2) ?_
      intro x
      simp only [List.mem_cons]
      rw [h x]

lemma jsSetDedup_cons_seen_of_not_mem (a : JStr) (l : List JStr) : ∀ seen, a ∉ l →
    jsSetDedup (a :: seen) l = jsSetDedup seen l := by
  induction l with
  | nil => intro seen _; rfl
  | cons b l ih =>
    intro seen hal
    have hba : ¬b = a := by
      intro h
      exact hal (by rw [h]; exact List.mem_cons_self a l)
    have hal2 : a ∉ l := fun hx => hal (List.mem_cons_of_mem _ hx)
    simp only [jsSetDedup]
    have hmem : b ∈ a :: seen ↔ b ∈ seen := by
      simp only [List.mem_cons]
      constructor
      · rintro (h | h)
        · exact absurd h hba
        · exact h
      · exact Or.inr
    by_cases hb : b ∈ seen
    · rw [if_pos (hmem.mpr hb), if_pos hb]
      exact ih seen hal2
    · rw [if_neg (fun hx => hb (hmem.mp hx)), if_neg hb]
      congr 1
      calc jsSetDedup (b :: a :: seen) l
          = jsSetDedup (a :: b :: seen) l := by
            refine jsSetDedup_congr l _ _ ?_
            intro x
            simp only [List.mem_cons]
            tauto
        _ = jsSetDedup (b :: seen) l := ih (b :: seen) hal2

lemma jsSetDedup_filter (p : JStr → Bool) (l : List JStr) : ∀ seen,
    (jsSetDedup seen l).filter p = jsSetDedup seen (l.filter p) := by
  induction l with
  | nil => intro seen; rfl
  | cons a l ih =>
    intro seen
    by_cases ha : a ∈ seen
    · rw [show jsSetDedup seen (a :: l) = jsSetDedup seen l from by
        simp only [jsSetDedup, if_pos ha]]
      cases hpa : p a with
      | false =>
        rw [List.filter_cons_of_neg (by simp [hpa])]
        exact ih seen
      | true =>
        rw [List.filter_cons_of_pos (by simp [hpa])]
        rw [show jsSetDedup seen (a :: l.filter p) = jsSetDedup seen (l.filter p) from by
          simp only [jsSetDedup, if_pos ha]]
        exact ih seen
    · rw [show jsSetDedup seen (a :: l) = a :: jsSetDedup (a :: seen) l from by
        simp only [jsSetDedup, if_neg ha]]
      cases hpa : p a with
      | true =>
        rw [List.filter_cons_of_pos (by simp [hpa]),
          List.filter_cons_of_pos (by simp [hpa])]
        rw [show jsSetDedup seen (a :: l.filter p)
            = a :: jsSetDedup (a :: seen) (l.filter p) from by
          simp only [jsSetDedup, if_neg ha]]
        rw [ih (a :: seen)]
      | false =>
        rw [List.filter_cons_of_neg (by simp [hpa]),
          List.filter_cons_of_neg (by simp [hpa])]
        rw [ih (a :: seen)]
        refine jsSetDedup_cons_seen_of_not_mem a _ seen ?_
        intro hx
        rw [List.mem_filter] at hx
        rw [hx.2] at hpa
        exact absurd hpa (by decide)

lemma mem_cleanTags {t : JStr} {L : List JStr} :
    t ∈ cleanTags L ↔ t ≠ [] ∧ ∃ r ∈ L, jsNormTag r = t := by
  unfold cleanTags
  rw [List.mem_filter, mem_jsSetDedup]
  simp only [List.mem_map, List.not_mem_nil, not_false_iff, and_true]
  constructor
  · rintro ⟨⟨r, hr, rfl⟩, h2⟩
    exact ⟨by simpa using h2, r, hr, rfl⟩
  · rintro ⟨h1, r, hr, rfl⟩
    exact ⟨⟨r, hr, rfl⟩, by simpa using h1⟩

lemma cleanTags_nodup (L : List JStr) : (cleanTags L).Nodup :=
  List.Nodup.filter _ (nodup_jsSetDedup _ _)

lemma cleanTags_mem_props {t : JStr} {L : List JStr} (h : t ∈ cleanTags L) :
    t ≠ [] ∧ jsTrim t = t ∧ jsToLower t = t := by
  rw [mem_cleanTags] at h
  obtain ⟨hne, r, -, rfl⟩ := h
  exact ⟨hne, jsTrim_jsNormTag r, jsToLower_jsNormTag r⟩

/-! ### Lemmas about `connectOrCreate` and row lookup -/

lemma mem_connectOrCreate (names : List JStr) : ∀ rows x,
    x ∈ connectOrCreate names rows ↔ x ∈ rows ∨ x ∈ names := by
  induction names with
  | nil => intro rows x; simp [connectOrCreate]
  | cons nm names ih =>
    intro rows x
    show x ∈ connectOrCreate names (if nm ∈ rows then rows else rows ++ [nm]) ↔ _
    rw [ih]
    by_cases h : nm ∈ rows
    · rw [if_pos h]
      simp only [List.mem_cons]
      constructor
      · rintro (h1 | h1)
        · exact Or.inl h1
        · exact Or.inr (Or.inr h1)
      · rintro (h1 | rfl | h1)
        · exact Or.inl h1
        · exact Or.inl h
        · exact Or.inr h1
    · rw [if_neg h]
      simp only [List.mem_append, List.mem_singleton, List.mem_cons]
      tauto

lemma connectOrCreate_preserves {names rows : List JStr} {x : JStr} (h : x ∈ rows) :
    x ∈ connectOrCreate names rows :=
  (mem_connectOrCreate names rows x).mpr (Or.inl h)

lemma connectOrCreate_nodup (names : List JStr) : ∀ rows, rows.Nodup →
    (connectOrCreate names rows).Nodup := by
  induction names with
  | nil => intro rows h; exact h
  | cons nm names ih =>
    intro rows h
    show (connectOrCreate names (if nm ∈ rows then rows else rows ++ [nm])).Nodup
    by_cases hmem : nm ∈ rows
    · rw [if_pos hmem]
      exact ih rows h
    · rw [if_neg hmem]
      refine ih _ ?_
      rw [List.nodup_append]
      refine ⟨h, List.nodup_singleton _, ?_⟩
      intro a ha hb
      rw [List.mem_singleton] at hb
      subst hb
      exact hmem ha

lemma find?_map_replace (i : JStr) (m2 : Note) (h2 : (m2.id == i) = true) :
    ∀ (l : List Note) (m : Note), l.find? (fun x => x.id == i) = some m →
    (l.map (fun x => if x.id == i then m2 else x)).find? (fun x => x.id == i) = some m2 := by
  intro l
  induction l with
  | nil => intro m h; simp at h
  | cons a l ih =>
    intro m h
    rw [List.map_cons]
    by_cases ha : (a.id == i) = true
    · rw [if_pos ha]
      exact List.find?_cons_of_pos _ h2
    · rw [if_neg ha]
      rw [List.find?_cons_of_neg _ (by simpa using ha)]
      rw [List.find?_cons_of_neg _ (by simpa using ha)] at h
      exact ih m h

lemma listNotesHandler_map_note (q : Option JStr) (s : Store) :
    (listNotesHandler q s).map NoteJoin.note = dalListNotes (parseTagsQuery q) s := by
  unfold listNotesHandler
  rw [List.map_map]
  exact List.map_id'' (fun n => rfl) _

lemma find?_map_replace_ne (i j : JStr) (m2 : Note) (hj : ¬j = i) (hm2 : m2.id = i)
    (l : List Note) (n : Note) (h : l.find? (fun x => x.id == j) = some n) :
    (l.map (fun x => if x.id == i then m2 else x)).find? (fun x => x.id == j) = some n := by
  rw [List.find?_map]
  have hpred : ((fun x : Note => x.id == j) ∘ (fun x => if x.id == i then m2 else x))
      = (fun x : Note => x.id == j) := by
    funext x
    simp only [Function.comp_apply]
    by_cases hx : (x.id == i) = true
    · rw [if_pos hx]
      have hxi : x.id = i := by simpa using hx
      have h1 : (m2.id == j) = false := by
        rw [beq_eq_false_iff_ne, hm2]
        exact fun hy => hj hy.symm
      have h2 : (x.id == j) = false := by
        rw [beq_eq_false_iff_ne, hxi]
        exact fun hy => hj hy.symm
      rw [h1, h2]
    · rw [if_neg hx]
  rw [hpred, h]
  have hnj : n.id = j := by simpa using List.find?_some h
  have hni : ¬(n.id == i) = true := by
    simp only [beq_iff_eq, hnj]
    exact hj
  simp [hni]
  intro hx
  exact absurd (hnj.symm.trans hx) hj

/-- Rewrite the PATCH handler on its success path. -/
lemma patchNoteHandler_success (now : Nat) (i : JStr) (b : PatchNoteBody) (s : Store)
    (m : Note) (hu : isValidUUID i = true) (hv : validateNotePatchRequest b = none)
    (hf : findNote i s = some m) :
    patchNoteHandler now i b s =
      (HResp.ok 200 (joinNote
          { s with
            notes := s.notes.map (fun x => if x.id == i
              then applyNoteUpdate (buildNoteUpdateData b) now m else x),
            tagRows := connectOrCreate ((buildNoteUpdateData b).tagNames.getD []) s.tagRows }
          (applyNoteUpdate (buildNoteUpdateData b) now m)),
        { s with
          notes := s.notes.map (fun x => if x.id == i
            then applyNoteUpdate (buildNoteUpdateData b) now m else x),
          tagRows := connectOrCreate ((buildNoteUpdateData b).tagNames.getD []) s.tagRows }) := by
  unfold patchNoteHandler dalUpdateNote
  rw [hv, hf]
  simp [hu]

/-- Case split on the store returned by the PATCH handler. -/
lemma patchNoteHandler_store (now : Nat) (i : JStr) (b : PatchNoteBody) (s : Store) :
    (patchNoteHandler now i b s).2 = s
    ∨ (∃ m, findNote i s = some m ∧
        (patchNoteHandler now i b s).2 =
          { s with
            notes := s.notes.map (fun x => if x.id == i
              then applyNoteUpdate (buildNoteUpdateData b) now m else x),
            tagRows := connectOrCreate ((buildNoteUpdateData b).tagNames.getD []) s.tagRows }) := by
  by_cases hu : isValidUUID i = true
  · rcases hv : validateNotePatchRequest b with - | msg
    · rcases hf : findNote i s with - | m
      · left
        unfold patchNoteHandler dalUpdateNote
        rw [hv, hf]
        simp [hu]
      · right
        exact ⟨m, rfl, by rw [patchNoteHandler_success now i b s m hu hv hf]⟩
    · left
      unfold patchNoteHandler
      rw [hv]
      simp [hu]
  · left
    have hu2 : isValidUUID i = false := by
      cases hx : isValidUUID i
      · rfl
      · exact absurd hx hu
    unfold patchNoteHandler
    rw [if_pos (by rw [hu2]; rfl)]

lemma createAuthorHandler_notes (nid : JStr) (nm : Option JStr) (s : Store) :
    (createAuthorHandler nid nm s).2.notes = s.notes := by
  unfold createAuthorHandler
  by_cases hb : blankStr nm = true
  · rw [if_pos hb]
  · rw [if_neg hb]

lemma createAuthorHandler_tagRows (nid : JStr) (nm : Option JStr) (s : Store) :
    (createAuthorHandler nid nm s).2.tagRows = s.tagRows := by
  unfold createAuthorHandler
  by_cases hb : blankStr nm = true
  · rw [if_pos hb]
  · rw [if_neg hb]

lemma createNoteHandler_store (nid : JStr) (now : Nat) (b : CreateNoteBody) (s : Store) :
    (createNoteHandler nid now b s).2 = s
    ∨ (∃ nn ts, (createNoteHandler nid now b s).2.notes = s.notes ++ [nn]
        ∧ (createNoteHandler nid now b s).2.tagRows
            = connectOrCreate (cleanTags ts) s.tagRows
        ∧ (createNoteHandler nid now b s).2.authors = s.authors) := by
  unfold createNoteHandler
  by_cases h1 : blankStr b.title = true
  · rw [if_pos h1]
    exact Or.inl rfl
  · rw [if_neg h1]
    by_cases h2 : (b.tags == TagsField.notArray) = true
    · rw [if_pos h2]
      exact Or.inl rfl
    · rw [if_neg h2]
      by_cases h3 : blankStr b.authorId = true
      · rw [if_pos h3]
        exact Or.inl rfl
      · rw [if_neg h3]
        by_cases h4 : (!isValidUUID (b.authorId.getD [])) = true
        · simp only [if_pos h4]
          exact Or.inl trivial
        · simp only [if_neg h4]
          cases hA : findAuthor (b.authorId.getD []) s with
          | none => exact Or.inl rfl
          | some a =>
            right
            exact ⟨_, _, rfl, rfl, rfl⟩

/-- Whatever operation runs, a Note that was observable by id keeps its
`id`, `authorId` and `createdAt`. -/
lemma fields_preserved_applyOp (o : ApiOp) (s : Store) (j : JStr) (n : Note)
    (h : findNote j s = some n) :
    ∃ n2, findNote j (applyOp o s) = some n2
      ∧ n2.id = n.id ∧ n2.authorId = n.authorId ∧ n2.createdAt = n.createdAt := by
  cases o with
  | postAuthor nid nm =>
    refine ⟨n, ?_, rfl, rfl, rfl⟩
    show ((createAuthorHandler nid nm s).2.notes).find? (fun x => x.id == j) = some n
    rw [createAuthorHandler_notes]
    exact h
  | postNote nid now b =>
    rcases createNoteHandler_store nid now b s with hs | ⟨nn, ts, hnotes, -, -⟩
    · refine ⟨n, ?_, rfl, rfl, rfl⟩
      show ((createNoteHandler nid now b s).2.notes).find? (fun x => x.id == j) = some n
      rw [hs]
      exact h
    · refine ⟨n, ?_, rfl, rfl, rfl⟩
      show ((createNoteHandler nid now b s).2.notes).find? (fun x => x.id == j) = some n
      rw [hnotes, List.find?_append]
      unfold findNote at h
      rw [h]
      rfl
  | patchNote now i b =>
    rcases patchNoteHandler_store now i b s with hs | ⟨m, hm, hs⟩
    · refine ⟨n, ?_, rfl, rfl, rfl⟩
      show ((patchNoteHandler now i b s).2.notes).find? (fun x => x.id == j) = some n
      rw [hs]
      exact h
    · unfold findNote at h hm
      by_cases hji : j = i
      · subst hji
        have hnm : n = m := by
          rw [h] at hm
          exact Option.some.inj hm
        subst hnm
        have hid0 := List.find?_some h
        refine ⟨applyNoteUpdate (buildNoteUpdateData b) now n, ?_, rfl, rfl, rfl⟩
        show ((patchNoteHandler now j b s).2.notes).find? (fun x => x.id == j) = _
        rw [hs]
        exact find?_map_replace j (applyNoteUpdate (buildNoteUpdateData b) now n)
          (show ((applyNoteUpdate (buildNoteUpdateData b) now n).id == j) = true from hid0)
          s.notes n h
      · refine ⟨n, ?_, rfl, rfl, rfl⟩
        show ((patchNoteHandler now i b s).2.notes).find? (fun x => x.id == j) = some n
        rw [hs]
        have hmi : m.id = i := by simpa using List.find?_some hm
        exact find?_map_replace_ne i j (applyNoteUpdate (buildNoteUpdateData b) now m)
          hji hmi s.notes n h

/-- Any operation either leaves the Tag table alone or extends it by
`connectOrCreate` with some cleaned tag list. -/
lemma applyOp_tagRows (o : ApiOp) (s : Store) :
    (applyOp o s).tagRows = s.tagRows
    ∨ ∃ ts, (applyOp o s).tagRows = connectOrCreate (cleanTags ts) s.tagRows := by
  cases o with
  | postAuthor nid nm => exact Or.inl (createAuthorHandler_tagRows nid nm s)
  | postNote nid now b =>
    rcases createNoteHandler_store nid now b s with hs | ⟨nn, ts, -, hrows, -⟩
    · left
      show (createNoteHandler nid now b s).2.tagRows = s.tagRows
      rw [hs]
    · exact Or.inr ⟨ts, hrows⟩
  | patchNote now i b =>
    rcases patchNoteHandler_store now i b s with hs | ⟨m, hm, hs⟩
    · left
      show (patchNoteHandler now i b s).2.tagRows = s.tagRows
      rw [hs]
    · cases htf : b.tags with
      | arr ts =>
        right
        refine ⟨ts, ?_⟩
        show (patchNoteHandler now i b s).2.tagRows = connectOrCreate (cleanTags ts) s.tagRows
        rw [hs]
        show connectOrCreate ((buildNoteUpdateData b).tagNames.getD []) s.tagRows = _
        simp [buildNoteUpdateData, htf]
      | absent =>
        left
        show (patchNoteHandler now i b s).2.tagRows = s.tagRows
        rw [hs]
        show connectOrCreate ((buildNoteUpdateData b).tagNames.getD []) s.tagRows = s.tagRows
        simp [buildNoteUpdateData, htf, connectOrCreate]
      | notArray =>
        left
        show (patchNoteHandler now i b s).2.tagRows = s.tagRows
        rw [hs]
        show connectOrCreate ((buildNoteUpdateData b).tagNames.getD []) s.tagRows = s.tagRows
        simp [buildNoteUpdateData, htf, connectOrCreate]






/-! ### Claim theorems -/

/-- C5: `cleanTags` returns the input list with each element lowercased and
trimmed, duplicates removed with the first occurrence fixing the order (the
same list arises whether empties are discarded before or after
deduplication), and the result has no duplicates, no entry with leading or
trailing whitespace, no empty entry, and only lowercase entries. -/
theorem cleanTags_normalizes (L : List JStr) :
    cleanTags L = jsSetDedup [] ((L.map jsNormTag).filter (fun t => !t.isEmpty))
    ∧ (cleanTags L).Nodup
    ∧ (∀ t ∈ cleanTags L, jsTrim t = t)
    ∧ (∀ t ∈ cleanTags L, t ≠ [])
    ∧ (∀ t ∈ cleanTags L, jsToLower t = t) := by
  refine ⟨jsSetDedup_filter _ (L.map jsNormTag) [], cleanTags_nodup L, ?_, ?_, ?_⟩ <;>
    intro t ht
  · exact (cleanTags_mem_props ht).2.1
  · exact (cleanTags_mem_props ht).1
  · exact (cleanTags_mem_props ht).2.2

theorem cleanTags_normalizes_witness :
    jsTrim ("testing".data) = ("testing".data)
    ∧ (cleanTags [("Testing".data), (" Vitest ".data), ("testing".data)]).Nodup := by
  have h := cleanTags_normalizes [("Testing".data), (" Vitest ".data), ("testing".data)]
  exact ⟨h.2.2.1 ("testing".data) (by decide), h.2.1⟩

/-- C9: in every store reachable through the API, Tag names are unique — no
two Tag rows share a name — and every stored name is in normal form
(non-empty, trimmed, lowercase), because every name entering the table goes
through `cleanTags` and is connected-or-created by its unique name key. -/
theorem tag_rows_unique_and_normalized (s : Store) (h : Reachable s) :
    s.tagRows.Nodup ∧ ∀ t ∈ s.tagRows, normalTagName t := by
  induction h with
  | init =>
    refine ⟨List.nodup_nil, ?_⟩
    intro t ht
    simp [emptyStore] at ht
  | next o hr ih =>
    rename_i s2
    rcases applyOp_tagRows o s2 with heq | ⟨ts, heq⟩
    · rw [heq]
      exact ih
    · rw [heq]
      refine ⟨connectOrCreate_nodup _ _ ih.1, ?_⟩
      intro t ht
      rw [mem_connectOrCreate] at ht
      rcases ht with ht | ht
      · exact ih.2 t ht
      · exact cleanTags_mem_props ht




theorem tag_rows_unique_and_normalized_witness :
    wStore2.tagRows.Nodup ∧ ∀ t ∈ wStore2.tagRows, normalTagName t := by
  have hr : Reachable wStore2 := Reachable.next _ (Reachable.next _ Reachable.init)
  exact tag_rows_unique_and_normalized wStore2 hr

/-- C7: a get-by-id request (note or author) whose id is not a syntactically
valid UUID is answered 400 with the same response whatever the store holds
(the store is never consulted), never 404 or 500; the same check guards the
PATCH route, which returns 400 and leaves the store untouched. -/
theorem invalid_id_rejected_before_store (i : JStr) (s : Store)
    (h : isValidUUID i = false) :
    getNoteHandler i s = HResp.err 400 ("Invalid UUID format".data)
    ∧ getAuthorHandler i s = HResp.err 400 ("Invalid UUID format".data)
    ∧ getNoteHandler i s = getNoteHandler i emptyStore
    ∧ getAuthorHandler i s = getAuthorHandler i emptyStore
    ∧ statusOf (getNoteHandler i s) ≠ 404 ∧ statusOf (getNoteHandler i s) ≠ 500
    ∧ statusOf (getAuthorHandler i s) ≠ 404 ∧ statusOf (getAuthorHandler i s) ≠ 500
    ∧ ∀ now b, patchNoteHandler now i b s = (HResp.err 400 ("Invalid UUID format".data), s) := by
  have hn : ∀ s0 : Store, getNoteHandler i s0 = HResp.err 400 ("Invalid UUID format".data) := by
    intro s0
    unfold getNoteHandler
    rw [if_pos (by rw [h]; rfl)]
  have ha : ∀ s0 : Store, getAuthorHandler i s0 = HResp.err 400 ("Invalid UUID format".data) := by
    intro s0
    unfold getAuthorHandler
    rw [if_pos (by rw [h]; rfl)]
  have hp : ∀ now b, patchNoteHandler now i b s = (HResp.err 400 ("Invalid UUID format".data), s) := by
    intro now b
    unfold patchNoteHandler
    rw [if_pos (by rw [h]; rfl)]
  refine ⟨hn s, ha s, by rw [hn s, hn emptyStore], by rw [ha s, ha emptyStore],
    ?_, ?_, ?_, ?_, hp⟩
  · rw [hn s]; decide
  · rw [hn s]; decide
  · rw [ha s]; decide
  · rw [ha s]; decide

theorem invalid_id_rejected_before_store_witness :
    getNoteHandler ("abc".data) cexStore = HResp.err 400 ("Invalid UUID format".data)
    ∧ statusOf (getNoteHandler ("abc".data) cexStore) ≠ 404 := by
  have h := invalid_id_rejected_before_store ("abc".data) cexStore (by decide)
  exact ⟨h.1, h.2.2.2.2.1⟩

/-! ### Branch lemmas for the create-note validation chain -/

lemma createNote_blank_title (newId : JStr) (now : Nat) (b : CreateNoteBody) (s : Store)
    (h1 : blankStr b.title = true) :
    createNoteHandler newId now b s = (HResp.err 400 ("Note title is required".data), s) := by
  unfold createNoteHandler
  rw [if_pos h1]

lemma createNote_tags_not_array (newId : JStr) (now : Nat) (b : CreateNoteBody) (s : Store)
    (h1 : blankStr b.title = false) (h2 : b.tags = TagsField.notArray) :
    createNoteHandler newId now b s = (HResp.err 400 ("Tags must be an array".data), s) := by
  unfold createNoteHandler
  rw [if_neg (by simp [h1]), if_pos (by simp [h2])]

lemma createNote_blank_author (newId : JStr) (now : Nat) (b : CreateNoteBody) (s : Store)
    (h1 : blankStr b.title = false) (h2 : b.tags ≠ TagsField.notArray)
    (h3 : blankStr b.authorId = true) :
    createNoteHandler newId now b s = (HResp.err 400 ("authorId is required".data), s) := by
  unfold createNoteHandler
  rw [if_neg (by simp [h1]), if_neg (by simp [h2]), if_pos h3]

lemma createNote_bad_uuid (newId : JStr) (now : Nat) (b : CreateNoteBody) (s : Store)
    (aid : JStr) (h1 : blankStr b.title = false) (h2 : b.tags ≠ TagsField.notArray)
    (h3 : blankStr b.authorId = false) (h4 : b.authorId = some aid)
    (h5 : isValidUUID aid = false) :
    createNoteHandler newId now b s
      = (HResp.err 400 ("The provided authorId is not in valid UUID format".data), s) := by
  unfold createNoteHandler
  rw [if_neg (by simp [h1]), if_neg (by simp [h2]), if_neg (by simp [h3])]
  simp only [h4, Option.getD_some]
  rw [if_pos (by rw [h5]; rfl)]

lemma createNote_author_missing (newId : JStr) (now : Nat) (b : CreateNoteBody) (s : Store)
    (aid : JStr) (h1 : blankStr b.title = false) (h2 : b.tags ≠ TagsField.notArray)
    (h3 : blankStr b.authorId = false) (h4 : b.authorId = some aid)
    (h5 : isValidUUID aid = true) (h6 : findAuthor aid s = none) :
    createNoteHandler newId now b s = (HResp.err 404 ("Author not found".data), s) := by
  unfold createNoteHandler
  rw [if_neg (by simp [h1]), if_neg (by simp [h2]), if_neg (by simp [h3])]
  simp only [h4, Option.getD_some]
  rw [if_neg (by rw [h5]; exact fun hx => by simp at hx), h6]

/-- C6: the create-note validation checks run in order — title presence, tags
is-array, authorId presence, authorId UUID format, author existence — and the
first failing check short-circuits with its error, leaving the store
untouched (so the insert never runs).  With a blank title and a malformed
authorId, the title error is reported (first conjunct). -/
theorem create_note_validation_order (newId : JStr) (now : Nat) (b : CreateNoteBody)
    (s : Store) :
    (blankStr b.title = true →
      createNoteHandler newId now b s = (HResp.err 400 ("Note title is required".data), s))
    ∧ (blankStr b.title = false → b.tags = TagsField.notArray →
      createNoteHandler newId now b s = (HResp.err 400 ("Tags must be an array".data), s))
    ∧ (blankStr b.title = false → b.tags ≠ TagsField.notArray →
        blankStr b.authorId = true →
      createNoteHandler newId now b s = (HResp.err 400 ("authorId is required".data), s))
    ∧ (∀ aid, blankStr b.title = false → b.tags ≠ TagsField.notArray →
        blankStr b.authorId = false → b.authorId = some aid → isValidUUID aid = false →
      createNoteHandler newId now b s
        = (HResp.err 400 ("The provided authorId is not in valid UUID format".data), s))
    ∧ (∀ aid, blankStr b.title = false → b.tags ≠ TagsField.notArray →
        blankStr b.authorId = false → b.authorId = some aid → isValidUUID aid = true →
        findAuthor aid s = none →
      createNoteHandler newId now b s = (HResp.err 404 ("Author not found".data), s)) := by
  refine ⟨?_, ?_, ?_, ?_, ?_⟩
  · exact createNote_blank_title newId now b s
  · exact createNote_tags_not_array newId now b s
  · exact createNote_blank_author newId now b s
  · intro aid h1 h2 h3 h4 h5
    exact createNote_bad_uuid newId now b s aid h1 h2 h3 h4 h5
  · intro aid h1 h2 h3 h4 h5 h6
    exact createNote_author_missing newId now b s aid h1 h2 h3 h4 h5 h6

theorem create_note_validation_order_witness :
    createNoteHandler uuidN 3
        ⟨some [], none, some ("zzz".data), TagsField.absent⟩ cexStore
      = (HResp.err 400 ("Note title is required".data), cexStore) := by
  have h := create_note_validation_order uuidN 3
    ⟨some [], none, some ("zzz".data), TagsField.absent⟩ cexStore
  exact h.1 (by decide)

/-- C3 counterexample: a create-note request whose authorId is a well-formed
UUID with no matching Author row but whose title is blank is answered 400
(title error), not 404 — the claim's unconditional 404 fails. -/
theorem create_note_missing_author_cex :
    isValidUUID uuidB = true
    ∧ findAuthor uuidB emptyStore = none
    ∧ createNoteHandler uuidN 0
        ⟨none, none, some uuidB, TagsField.absent⟩ emptyStore
      = (HResp.err 400 ("Note title is required".data), emptyStore)
    ∧ statusOf (createNoteHandler uuidN 0
        ⟨none, none, some uuidB, TagsField.absent⟩ emptyStore).1 ≠ 404 := by
  decide

/-- C3 (amended): a create-note request that passes the earlier validations
(non-blank title, tags an array when present, non-blank authorId) and whose
authorId is a well-formed UUID with no matching Author row is answered 404
and the store is unchanged — the existence lookup runs before the insert, so
no Note, Tag or association is persisted. -/
theorem create_note_missing_author_404 (newId : JStr) (now : Nat) (b : CreateNoteBody)
    (s : Store) (aid : JStr)
    (h1 : blankStr b.title = false) (h2 : b.tags ≠ TagsField.notArray)
    (h3 : blankStr b.authorId = false) (h4 : b.authorId = some aid)
    (h5 : isValidUUID aid = true) (h6 : findAuthor aid s = none) :
    createNoteHandler newId now b s = (HResp.err 404 ("Author not found".data), s)
    ∧ (createNoteHandler newId now b s).2 = s :=
  ⟨createNote_author_missing newId now b s aid h1 h2 h3 h4 h5 h6,
   by rw [createNote_author_missing newId now b s aid h1 h2 h3 h4 h5 h6]⟩

theorem create_note_missing_author_404_witness :
    createNoteHandler uuidN 2
        ⟨some ("T".data), none, some uuidB, TagsField.absent⟩ cexStore
      = (HResp.err 404 ("Author not found".data), cexStore) := by
  have h := create_note_missing_author_404 uuidN 2
    ⟨some ("T".data), none, some uuidB, TagsField.absent⟩ cexStore uuidB
    (by decide) (by decide) (by decide) (by decide) (by decide) (by decide)
  exact h.1

/-- C1 counterexample: a PATCH body carrying only an unrecognised key — so
none of `title`, `content`, `tags` — passes validation (`Object.keys` counts
the unknown key), the update runs, the response is 200 and the stored Note
changes (`updatedAt` is refreshed): the claimed unconditional 400 fails. -/
theorem patch_unknown_key_body_not_rejected :
    cexPatchBody.title = none ∧ cexPatchBody.content = none
    ∧ cexPatchBody.tags = TagsField.absent
    ∧ statusOf (patchNoteHandler 5 uuidN cexPatchBody cexStore).1 = 200
    ∧ (patchNoteHandler 5 uuidN cexPatchBody cexStore).2 ≠ cexStore := by
  decide

/-- C1 (amended): a PATCH body with no keys at all (the empty JSON object) is
rejected 400 with the same response whatever the store holds (no store
access), and the store — hence the targeted Note — is unchanged. -/
theorem patch_empty_body_rejected (now : Nat) (i : JStr) (b : PatchNoteBody) (s : Store)
    (h : patchKeyCount b = 0) :
    (patchNoteHandler now i b s).1 = (patchNoteHandler now i b emptyStore).1
    ∧ statusOf (patchNoteHandler now i b s).1 = 400
    ∧ (patchNoteHandler now i b s).2 = s := by
  have hval : validateNotePatchRequest b = some ("No fields to update provided".data) := by
    unfold validateNotePatchRequest
    rw [if_pos (by simp [h])]
  by_cases hu : isValidUUID i = true
  · have hres : ∀ s0 : Store, patchNoteHandler now i b s0
        = (HResp.err 400 ("No fields to update provided".data), s0) := by
      intro s0
      unfold patchNoteHandler
      rw [hval]
      simp [hu]
    exact ⟨by rw [hres s, hres emptyStore], by rw [hres s]; rfl, by rw [hres s]⟩
  · have hu2 : isValidUUID i = false := by
      cases hx : isValidUUID i
      · rfl
      · exact absurd hx hu
    have hres : ∀ s0 : Store, patchNoteHandler now i b s0
        = (HResp.err 400 ("Invalid UUID format".data), s0) := by
      intro s0
      unfold patchNoteHandler
      rw [if_pos (by rw [hu2]; rfl)]
    exact ⟨by rw [hres s, hres emptyStore], by rw [hres s]; rfl, by rw [hres s]⟩

theorem patch_empty_body_rejected_witness :
    statusOf (patchNoteHandler 1 uuidN ⟨none, none, TagsField.absent, 0⟩ cexStore).1 = 400
    ∧ (patchNoteHandler 1 uuidN ⟨none, none, TagsField.absent, 0⟩ cexStore).2 = cexStore := by
  have h := patch_empty_body_rejected 1 uuidN ⟨none, none, TagsField.absent, 0⟩ cexStore
    (by decide)
  exact ⟨h.2.1, h.2.2⟩

lemma patchNoteHandler_success_snd (now : Nat) (i : JStr) (b : PatchNoteBody) (s : Store)
    (m : Note) (hu : isValidUUID i = true) (hv : validateNotePatchRequest b = none)
    (hf : findNote i s = some m) :
    (patchNoteHandler now i b s).2 =
      { s with
        notes := s.notes.map (fun x => if x.id == i
          then applyNoteUpdate (buildNoteUpdateData b) now m else x),
        tagRows := connectOrCreate ((buildNoteUpdateData b).tagNames.getD []) s.tagRows } := by
  rw [patchNoteHandler_success now i b s m hu hv hf]

/-- C2: a successful PATCH that supplies a tag list `ts` leaves the targeted
Note associated with exactly `cleanTags ts` (full replacement, no merge),
never deletes a Tag row, and leaves every other Note's associations
untouched (the Tag rows stay reusable). -/
theorem update_with_tags_replaces_assocs (now : Nat) (i : JStr) (b : PatchNoteBody)
    (s : Store) (ts : List JStr) (m : Note)
    (htags : b.tags = TagsField.arr ts)
    (hval : validateNotePatchRequest b = none)
    (huuid : isValidUUID i = true)
    (hfind : findNote i s = some m) :
    (∃ m2, findNote i (patchNoteHandler now i b s).2 = some m2
        ∧ m2.tags = cleanTags ts ∧ m2.id = m.id)
    ∧ (∀ t ∈ s.tagRows, t ∈ (patchNoteHandler now i b s).2.tagRows)
    ∧ (∀ n ∈ s.notes, (n.id == i) = false → n ∈ (patchNoteHandler now i b s).2.notes) := by
  have hsnd := patchNoteHandler_success_snd now i b s m huuid hval hfind
  refine ⟨⟨applyNoteUpdate (buildNoteUpdateData b) now m, ?_, ?_, rfl⟩, ?_, ?_⟩
  · unfold findNote
    rw [hsnd]
    show List.find? (fun n => n.id == i)
      (s.notes.map (fun x => if x.id == i
        then applyNoteUpdate (buildNoteUpdateData b) now m else x)) = _
    unfold findNote at hfind
    have hid0 := List.find?_some hfind
    exact find?_map_replace i (applyNoteUpdate (buildNoteUpdateData b) now m)
      (show ((applyNoteUpdate (buildNoteUpdateData b) now m).id == i) = true from hid0)
      s.notes m hfind
  · show (buildNoteUpdateData b).tagNames.getD m.tags = cleanTags ts
    simp [buildNoteUpdateData, htags]
  · intro t ht
    rw [hsnd]
    show t ∈ connectOrCreate ((buildNoteUpdateData b).tagNames.getD []) s.tagRows
    exact connectOrCreate_preserves ht
  · intro n hn hne
    rw [hsnd]
    show n ∈ s.notes.map (fun x => if x.id == i
      then applyNoteUpdate (buildNoteUpdateData b) now m else x)
    rw [List.mem_map]
    exact ⟨n, hn, by rw [if_neg (by simp [hne])]⟩


theorem update_with_tags_replaces_assocs_witness :
    (∃ m2, findNote uuidN (patchNoteHandler 7 uuidN wPatchBody cexStore).2 = some m2
      ∧ m2.tags = cleanTags [("updated".data), ("testing".data)] ∧ m2.id = cexNote.id)
    ∧ ∀ t ∈ cexStore.tagRows, t ∈ (patchNoteHandler 7 uuidN wPatchBody cexStore).2.tagRows := by
  have h := update_with_tags_replaces_assocs 7 uuidN wPatchBody cexStore
    [("updated".data), ("testing".data)] cexNote (by decide) (by decide) (by decide)
    (by decide)
  exact ⟨h.1, h.2.1⟩

/-- C4 counterexample: with the query string `tags=` (empty string — falsy in
JavaScript) the handler applies no filter and returns the note, although the
note has no tag among the comma-split pieces of the query string, which the
claim says should exclude it. -/
theorem list_notes_empty_query_cex :
    (listNotesHandler (some []) cexStore).map NoteJoin.note = [cexNote]
    ∧ noteMatchesFilter
        ((jsSplitOn (fun c => c.toNat = 44) []).map (fun p => jsTrim (jsToLower p)))
        cexNote = false := by
  decide

/-- C4 (amended): the list-notes handler joins each Note with its Author;
with the query absent — or equal to the empty string, which the handler
treats as no filter — the result is all Notes sorted by `createdAt`
descending; with a non-empty query string the result is exactly the Notes
having at least one tag among the comma-split, trimmed, lowercased pieces
(OR across the pieces), in the same order and join shape. -/
theorem list_notes_filter_or (q : Option JStr) (s : Store) :
    (∀ v ∈ listNotesHandler q s, v.author = findAuthor v.note.authorId s)
    ∧ ((q = none ∨ q = some []) →
        List.Perm ((listNotesHandler q s).map NoteJoin.note) s.notes
        ∧ List.Sorted createdGE ((listNotesHandler q s).map NoteJoin.note))
    ∧ (∀ t, q = some t → t ≠ [] →
        List.Perm ((listNotesHandler q s).map NoteJoin.note)
          (s.notes.filter (noteMatchesFilter
            ((jsSplitOn (fun c => c.toNat = 44) t).map (fun p => jsTrim (jsToLower p)))))
        ∧ List.Sorted createdGE ((listNotesHandler q s).map NoteJoin.note)) := by
  refine ⟨?_, ?_, ?_⟩
  · intro v hv
    unfold listNotesHandler at hv
    rw [List.mem_map] at hv
    obtain ⟨n, -, rfl⟩ := hv
    rfl
  · intro hq
    rw [listNotesHandler_map_note]
    have hpq : parseTagsQuery q = none := by
      rcases hq with rfl | rfl
      · rfl
      · rfl
    rw [hpq]
    exact ⟨List.perm_insertionSort _ _, List.sorted_insertionSort _ _⟩
  · intro t hqt hne
    subst hqt
    rw [listNotesHandler_map_note]
    have hpq : parseTagsQuery (some t)
        = some ((jsSplitOn (fun c => c.toNat = 44) t).map (fun p => jsTrim (jsToLower p))) := by
      simp only [parseTagsQuery]
      rw [if_neg (by simp [hne])]
    rw [hpq]
    exact ⟨List.perm_insertionSort _ _, List.sorted_insertionSort _ _⟩




theorem list_notes_filter_or_witness :
    List.Perm ((listNotesHandler (some ("testing".data)) wListStore).map NoteJoin.note)
      (wListStore.notes.filter (noteMatchesFilter
        ((jsSplitOn (fun c => c.toNat = 44) ("testing".data)).map
          (fun p => jsTrim (jsToLower p)))))
    ∧ (listNotesHandler (some ("testing".data)) wListStore).map NoteJoin.note
        = [wNoteTestingOther] := by
  have h := list_notes_filter_or (some ("testing".data)) wListStore
  have h2 := h.2.2 ("testing".data) rfl (by decide)
  exact ⟨h2.1, by decide⟩

/-- C8: a successful partial update changes only the fields present in the
body — absent `title`, `content` or `tags` leave the stored value and the
associations as they were — while `authorId` and `createdAt` are preserved;
and across every store-mutating operation of the API, a Note observable by
id keeps its `id`, `authorId` and `createdAt`. -/
theorem partial_update_frame :
    (∀ (now : Nat) (i : JStr) (b : PatchNoteBody) (s : Store) (m : Note),
        isValidUUID i = true → validateNotePatchRequest b = none →
        findNote i s = some m →
        ∃ m2, findNote i (patchNoteHandler now i b s).2 = some m2
          ∧ (b.title = none → m2.title = m.title)
          ∧ (b.content = none → m2.content = m.content)
          ∧ (b.tags = TagsField.absent → m2.tags = m.tags)
          ∧ m2.authorId = m.authorId ∧ m2.createdAt = m.createdAt ∧ m2.id = m.id)
    ∧ (∀ (o : ApiOp) (s : Store) (j : JStr) (n : Note), findNote j s = some n →
        ∃ n2, findNote j (applyOp o s) = some n2
          ∧ n2.id = n.id ∧ n2.authorId = n.authorId ∧ n2.createdAt = n.createdAt) := by
  constructor
  · intro now i b s m hu hv hf
    refine ⟨applyNoteUpdate (buildNoteUpdateData b) now m, ?_, ?_, ?_, ?_, rfl, rfl, rfl⟩
    · unfold findNote
      rw [patchNoteHandler_success_snd now i b s m hu hv hf]
      show List.find? (fun n => n.id == i)
        (s.notes.map (fun x => if x.id == i
          then applyNoteUpdate (buildNoteUpdateData b) now m else x)) = _
      unfold findNote at hf
      have hid0 := List.find?_some hf
      exact find?_map_replace i (applyNoteUpdate (buildNoteUpdateData b) now m)
        (show ((applyNoteUpdate (buildNoteUpdateData b) now m).id == i) = true from hid0)
        s.notes m hf
    · intro ht
      show (buildNoteUpdateData b).title.getD m.title = m.title
      simp [buildNoteUpdateData, ht]
    · intro hc
      show (buildNoteUpdateData b).content.getD m.content = m.content
      simp [buildNoteUpdateData, hc]
    · intro htg
      show (buildNoteUpdateData b).tagNames.getD m.tags = m.tags
      simp [buildNoteUpdateData, htg]
  · exact fun o s j n h => fields_preserved_applyOp o s j n h

theorem partial_update_frame_witness :
    ∃ m2, findNote uuidN (patchNoteHandler 9 uuidN
        ⟨some ("T2".data), none, TagsField.absent, 0⟩ cexStore).2 = some m2
      ∧ m2.content = cexNote.content ∧ m2.tags = cexNote.tags
      ∧ m2.authorId = cexNote.authorId ∧ m2.createdAt = cexNote.createdAt := by
  obtain ⟨m2, h1, -, h3, h4, h5, h6, -⟩ := partial_update_frame.1 9 uuidN
    ⟨some ("T2".data), none, TagsField.absent, 0⟩ cexStore cexNote
    (by decide) (by decide) (by decide)
  exact ⟨m2, h1, h3 rfl, h4 rfl, h5, h6⟩
